import Mathlib

/-!
Verification development for the LinkDave audio worker pool.

The definitions below are a shallow embedding of the repository code:
the node audio pipeline (server/audio), the voice connection state
machine (server/voice), the node server player records and handlers
(server/server), and the controller player (client/src/player.ts).
Machine integers are modelled as Int or Nat, Go durations as integer
milliseconds, and external collaborators (the HTTP host, the MP3
decoder, the Opus encoder library, the voice transport) as explicit
environment inputs, exactly as the spec scopes them out.
-/

namespace LinkDave

/-! ## Audio source constants (server/audio/factory.go) -/

/-- Discord expects 48kHz output (factory.go `opusSampleRate`). -/
def opusSampleRate : Nat := 48000

/-- Stereo output (factory.go `opusChannels`). -/
def opusChannels : Nat := 2

/-- Frame size: 20ms at 48kHz (factory.go `opusFrameSize`). -/
def opusFrameSize : Nat := 960

/-- PCM bytes needed for one opus frame: 960 samples, 2 channels, 2
bytes per sample (factory.go `pcmFrameBytes` = 3840). -/
def pcmFrameBytes : Nat := opusFrameSize * opusChannels * 2

/-- Go `resampleRatio := float64(opusSampleRate) / float64(srcSampleRate)`,
modelled over the rationals. -/
def resampleRatio (srcSampleRate : Nat) : ℚ :=
  (opusSampleRate : ℚ) / (srcSampleRate : ℚ)

/-- Go rounding of a nonneg value to the next multiple of 4:
`((n + 3) / 4) * 4` with integer division (factory.go line 98). -/
def roundUpTo4 (n : Nat) : Nat := ((n + 3) / 4) * 4

/-- Go `inputFrameBytes := int(float64(pcmFrameBytes) / resampleRatio)`,
then rounded up to a multiple of 4 (factory.go lines 97 and 98).  Go
computes the quotient in float64; here the quotient is exact rational
arithmetic truncated toward zero, which on the sample rates the MP3
decoder can report agrees with the float computation (see the C7
theorem, which also covers a one-off truncation). -/
def inputFrameBytes (srcSampleRate : Nat) : Nat :=
  roundUpTo4 (Int.toNat ⌊(pcmFrameBytes : ℚ) / resampleRatio srcSampleRate⌋)

/-- The sample rates the go-mp3 decoder can report (MPEG 1, 2 and 2.5
layer III). -/
def mp3SampleRates : List Nat :=
  [8000, 11025, 12000, 16000, 22050, 24000, 32000, 44100, 48000]

/-- Modelled from the spec: the per-call PCM read size
`round_up_to_multiple_of_4(pcm_frame_bytes / (48000 / src_rate))` with
exact real division, expressed as the least multiple of 4 at or above
the exact rational quotient. -/
def specReadSize (srcSampleRate : Nat) : ℤ :=
  4 * ⌈(pcmFrameBytes : ℚ) / ((opusSampleRate : ℚ) / (srcSampleRate : ℚ)) / 4⌉

/-- The exact untruncated read size before the round-up, as a natural
number (equals `pcmFrameBytes * src / 48000`, which is an integer for
every rate in `mp3SampleRates`). -/
def exactRawReadSize (srcSampleRate : Nat) : Nat :=
  pcmFrameBytes * srcSampleRate / opusSampleRate

/-! ## MP3 source state and frame production (server/audio/factory.go)

The HTTP body, the go-mp3 decoder and the Opus encoder are external
collaborators (spec section 1); their per-call behaviour enters the
model as explicit inputs.  The in-repo logic is translated faithfully:
the closed guard, the EOF/short-read/pad branches of `io.ReadFull`,
the position counter, and the copy-out of the encoded prefix.  The
byte values produced by the resampler and encoder are carried as
uninterpreted byte lists since no claim concerns them. -/

/-- The mutable state of `MP3Source` that frame production touches.
`pcmBufferLen` is the length of `s.pcmBuffer`, fixed at construction
to `inputFrameBytes`; `position` is the `atomic.Int64` millisecond
counter; `closed` is the `atomic.Bool`. -/
structure MP3Source where
  url : String
  srcSampleRate : Nat
  pcmBufferLen : Nat
  position : Int
  closed : Bool
deriving DecidableEq, Repr

/-- The number of bytes one `ProvideOpusFrame` call asks `io.ReadFull`
to read from the decoder: the length of `s.pcmBuffer`. -/
def readRequestBytes (s : MP3Source) : Nat := s.pcmBufferLen

/-- Outcome of `io.ReadFull(s.decoder, s.pcmBuffer)`, an environment
input.  `ok` is a full read (the byte list fills the buffer);
`eofShort` is `io.EOF` or `io.ErrUnexpectedEOF` after reading the
given prefix (possibly empty); `readFail` is any other read error. -/
inductive ReadOutcome where
  | ok (bytes : List Nat)
  | eofShort (bytes : List Nat)
  | readFail
deriving DecidableEq, Repr

/-- Outcome of `s.encoder.Encode`, an environment input: the number of
opus bytes written into the scratch, or an encode error. -/
inductive EncodeOutcome where
  | ok (numBytes : Nat)
  | encodeFail
deriving DecidableEq, Repr

/-- Result of one `ProvideOpusFrame` call: an owned opus frame, EOF,
or an error. -/
inductive FrameResult where
  | frame (bytes : List Nat)
  | eofResult
  | errResult
deriving DecidableEq, Repr

/-- True when the call returned a frame. -/
def FrameResult.isFrame : FrameResult → Bool
  | .frame _ => true
  | _ => false

/-- The tail of `ProvideOpusFrame` after a (possibly padded) full PCM
buffer is available: sample conversion and resampling (which cannot
fail and do not touch `position`), then `encoder.Encode`; on success
`position.Add(20)` and the written prefix is copied out. -/
def encodeTail (s : MP3Source) (enc : EncodeOutcome) : FrameResult × MP3Source :=
  match enc with
  | .encodeFail => (.errResult, s)
  | .ok numBytes =>
      (.frame (List.replicate numBytes 0), { s with position := s.position + 20 })

/-- Model of `MP3Source.ProvideOpusFrame` (factory.go lines 113 to 158): if
closed return EOF; read `pcmBufferLen` bytes; a non-EOF read error is
fatal; EOF with nothing read returns EOF; a short read pads the buffer
with zeros and still emits a frame; otherwise resample, encode, bump
`position` by 20 and copy out the frame. -/
def provideOpusFrame (s : MP3Source) (rd : ReadOutcome) (enc : EncodeOutcome) :
    FrameResult × MP3Source :=
  if s.closed then (.eofResult, s)
  else
    match rd with
    | .readFail => (.errResult, s)
    | .eofShort bytes =>
        if bytes.length = 0 then (.eofResult, s)
        else encodeTail s enc
    | .ok _ => encodeTail s enc

/-- A sequence of `ProvideOpusFrame` calls, each with its environment
inputs, returning the call results and the final source state. -/
def runFrames (s : MP3Source) : List (ReadOutcome × EncodeOutcome) → List FrameResult × MP3Source
  | [] => ([], s)
  | (rd, enc) :: rest =>
      ((provideOpusFrame s rd enc).1 :: (runFrames (provideOpusFrame s rd enc).2 rest).1,
       (runFrames (provideOpusFrame s rd enc).2 rest).2)

/-- Number of successful calls in a result list. -/
def countFrames (ress : List FrameResult) : Nat :=
  (ress.filter FrameResult.isFrame).length

/-! ## Source construction (server/audio/factory.go lines 15 to 111) -/

/-- The one HTTP request `NewMP3Source` issues. -/
structure HTTPRequest where
  method : String
  url : String
  userAgent : String
deriving DecidableEq, Repr

/-- The request built at factory.go lines 65 to 69: GET on the given
URL with the identifying user agent.  The `startTimeMs` parameter of
`NewMP3Source` is visibly absent. -/
def mp3SourceRequest (url : String) (startTimeMs : Int) : HTTPRequest :=
  { method := "GET", url := url, userAgent := "LinkDave/1.0" }

/-- Environment for source construction: the HTTP status of the
response, whether the decoder and encoder constructors succeed, and
the sample rate the decoder reports. -/
structure FetchEnv where
  status : Nat
  decoderOk : Bool
  encoderOk : Bool
  sampleRate : Nat
deriving DecidableEq, Repr

/-- Model of `NewMP3Source` (factory.go lines 64 to 111): reject any status
other than 200 or 206, fail if the decoder or encoder constructor
fails, otherwise size the PCM buffer from the reported sample rate and
start with `position = 0`.  The `startTimeMs` argument is never
used. -/
def NewMP3Source (url : String) (startTimeMs : Int) (env : FetchEnv) : Option MP3Source :=
  if env.status ≠ 200 ∧ env.status ≠ 206 then none
  else if !env.decoderOk then none
  else if !env.encoderOk then none
  else some
    { url := url
      srcSampleRate := env.sampleRate
      pcmBufferLen := inputFrameBytes env.sampleRate
      position := 0
      closed := false }

/-- Model of `DefaultFactory.CreateFromURL` (factory.go lines 15 to 20): only
http and https URLs are accepted.  `strings.HasPrefix` is the prefix
test on the character data. -/
def createFromURL (url : String) (startTimeMs : Int) (env : FetchEnv) : Option MP3Source :=
  if "http://".data.isPrefixOf url.data || "https://".data.isPrefixOf url.data then
    NewMP3Source url startTimeMs env
  else none

/-! ## Track end reasons (server/protocol/opcodes.go) -/

def trackEndReasonFinished : String := "finished"

def trackEndReasonStopped : String := "stopped"

def trackEndReasonReplaced : String := "replaced"

def trackEndReasonError : String := "error"

def trackEndReasonCleanup : String := "cleanup"

/-- The terminal reasons the claim allows. -/
def terminalReasons : List String :=
  [trackEndReasonFinished, trackEndReasonStopped, trackEndReasonReplaced, trackEndReasonError]

/-! ## Voice connection state machine (server/voice connection, the
callback-taking version)

Sources are identified by a natural number; an `onTrackEnd` invocation
is recorded as a pair of the source and the reason string.  The fields
mirror `Connection`: the current `source` (nullable), the `paused`
atomic, the `stopChan` signal, and the list of fired track-end
callbacks. -/

structure ConnState where
  source : Option Nat
  paused : Bool
  stopSignal : Bool
  events : List (Nat × String)
deriving DecidableEq, Repr

/-- A fresh connection as built by `NewConnection`. -/
def connInit : ConnState :=
  { source := none, paused := false, stopSignal := false, events := [] }

/-- Model of `Connection.Play` (lines 159 to 192): if a source is installed,
detach and close it and fire `onTrackEnd(replaced)`; install the new
source, clear paused, re-arm the stop channel. -/
def connPlay (c : ConnState) (s : Nat) : ConnState :=
  match c.source with
  | some old =>
      { source := some s, paused := false, stopSignal := false,
        events := c.events ++ [(old, trackEndReasonReplaced)] }
  | none =>
      { c with source := some s, paused := false, stopSignal := false }

/-- Model of `Connection.Pause` (lines 194 to 197): set paused and detach the
frame provider; the source is not closed and no callback fires. -/
def connPause (c : ConnState) : ConnState := { c with paused := true }

/-- Model of `Connection.Resume` (lines 199 to 211): clear paused and reattach
the stored source; no callback fires. -/
def connResume (c : ConnState) : ConnState := { c with paused := false }

/-- Model of `Connection.Stop` (lines 213 to 233): close the stop channel; if a
source is installed, detach and close it and fire
`onTrackEnd(stopped)`. -/
def connStop (c : ConnState) : ConnState :=
  match c.source with
  | some old =>
      { c with source := none, stopSignal := true,
               events := c.events ++ [(old, trackEndReasonStopped)] }
  | none => { c with stopSignal := true }

/-- Model of `Connection.handleTrackEnd` (lines 235 to 252): if the ending
source is no longer the current one the callback is suppressed;
otherwise clear the source and fire `finished` for EOF or `error` for
any other error. -/
def connHandleTrackEnd (c : ConnState) (s : Nat) (isEOF : Bool) : ConnState :=
  if c.source = some s then
    { c with source := none,
             events := c.events ++
               [(s, if isEOF then trackEndReasonFinished else trackEndReasonError)] }
  else c

/-- Result of one `source.ProvideOpusFrame` pull observed by the
`trackWrapper` around source `s`. -/
inductive PullResult where
  | gotFrame
  | gotEOF
  | gotErr
deriving DecidableEq, Repr

/-- Model of `Connection.provideOpusFrame` (lines 267 to 273): an error result
(EOF included) triggers `handleTrackEnd`; a frame changes nothing. -/
def connPull (c : ConnState) (s : Nat) (r : PullResult) : ConnState :=
  match r with
  | .gotFrame => c
  | .gotEOF => connHandleTrackEnd c s true
  | .gotErr => connHandleTrackEnd c s false

/-- One operation against a connection: a command, or a frame pull by
the voice transport through a (possibly stale) track wrapper. -/
inductive ConnOp where
  | play (s : Nat)
  | pause
  | resume
  | stop
  | pull (s : Nat) (r : PullResult)
deriving DecidableEq, Repr

/-- Apply one operation. -/
def connStep (c : ConnState) : ConnOp → ConnState
  | .play s => connPlay c s
  | .pause => connPause c
  | .resume => connResume c
  | .stop => connStop c
  | .pull s r => connPull c s r

/-- Apply a sequence of operations. -/
def connRun (c : ConnState) (ops : List ConnOp) : ConnState :=
  ops.foldl connStep c

/-- Sources installed by the `play` operations of a sequence, in
order. -/
def playedSources : List ConnOp → List Nat
  | [] => []
  | .play s :: rest => s :: playedSources rest
  | _ :: rest => playedSources rest

/-- Number of track-end callbacks fired for source `s`. -/
def endCount (events : List (Nat × String)) (s : Nat) : Nat :=
  (events.filter (fun e => e.1 == s)).length

/-! ## Voice socket close handler (server/voice connection, lines 79
to 96) and manager fan-out (server/voice/manager.go) -/

/-- The situation the close handler of a voice socket observes:
whether `c.closed` is set, whether an `onDisconnect` callback was
registered, and whether the captured socket is still
`c.voiceConn`. -/
structure CloseHandlerCtx where
  closedFlag : Bool
  hasOnDisconnect : Bool
  isCurrent : Bool
deriving DecidableEq, Repr

/-- Whether the close handler invokes `c.onDisconnect`: it returns
early when `!c.closed.Load() || c.onDisconnect == nil`, then returns
unless the captured socket equals the current one. -/
def closeHandlerInvokesDisconnect (ctx : CloseHandlerCtx) : Bool :=
  if !ctx.closedFlag || !ctx.hasOnDisconnect then false
  else if !ctx.isCurrent then false
  else true

/-- Model of `Manager.onDisconnect` (manager.go lines 60 to 71): remove the map
entry when it still holds this connection, then notify the handler
with `OnVoiceDisconnected`.  Connections are identified by a natural
number; the map is an association list keyed by the `bot:guild`
string. -/
def managerOnDisconnect (connections : List (String × Nat)) (key : String) (conn : Nat)
    (hasHandler : Bool) : List (String × Nat) × Bool :=
  let connections :=
    if connections.lookup key = some conn then
      connections.filter (fun kv => !(kv.1 == key))
    else connections
  (connections, hasHandler)

/-! ## Node-side player records (server Player, the mutexed version)

Wall-clock instants are integer milliseconds; `time.Since(t)` at
instant `now` is `now - t`. -/

/-- The `Player` record fields the handlers touch. -/
structure PlayerRec where
  state : String
  currentURL : String
  position : Int
  volume : Int
  startedAt : Int
  channelID : Nat
deriving DecidableEq, Repr

/-- The record `getOrCreatePlayer` builds for a missing guild: idle,
volume 100, everything else zero. -/
def freshPlayer : PlayerRec :=
  { state := "idle", currentURL := "", position := 0, volume := 100,
    startedAt := 0, channelID := 0 }

/-- Model of `Player.SetVolume`: store the given volume as is. -/
def setVolume (p : PlayerRec) (vol : Int) : PlayerRec := { p with volume := vol }

/-- Model of `Player.SetPlayingState`: state playing, new url and position,
`startedAt = now`. -/
def setPlayingState (p : PlayerRec) (url : String) (position : Int) (now : Int) : PlayerRec :=
  { p with state := "playing", currentURL := url, position := position, startedAt := now }

/-- Model of `Player.SetPausedState`: state paused, store the position. -/
def setPausedState (p : PlayerRec) (position : Int) : PlayerRec :=
  { p with state := "paused", position := position }

/-- Model of `Player.SetIdleState`: state idle, clear the url. -/
def setIdleState (p : PlayerRec) : PlayerRec :=
  { p with state := "idle", currentURL := "" }

/-- Model of `Player.GetMigrateData`: the live position is
`time.Since(p.startedAt).Milliseconds() + p.position` in every state;
returns (url, position, volume, state). -/
def getMigrateData (p : PlayerRec) (now : Int) : String × Int × Int × String :=
  (p.currentURL, (now - p.startedAt) + p.position, p.volume, p.state)

/-- The MigrateReady payload (protocol MigrateReadyData). -/
structure MigrateReadyMsg where
  guildID : String
  url : String
  position : Int
  volume : Int
  state : String
deriving DecidableEq, Repr

/-- A session holds its players as a map keyed by guild id, modelled
as an association list with at most one entry per guild. -/
abbrev PlayersMap : Type := List (String × PlayerRec)

/-- Replace the record stored for a guild (pointer mutation of the
shared `*Player`). -/
def setPlayer (players : PlayersMap) (guild : String) (p : PlayerRec) : PlayersMap :=
  players.map (fun kv => if kv.1 = guild then (kv.1, p) else kv)

/-- Model of `Server.handlePlayerMigrate` (websocket.go lines 602 to 631): no
reply when the player is missing; otherwise reply MigrateReady with
the `GetMigrateData` snapshot. -/
def handlePlayerMigrate (players : PlayersMap) (guild : String) (now : Int) :
    Option MigrateReadyMsg :=
  match players.lookup guild with
  | none => none
  | some p =>
      let (url, position, volume, state) := getMigrateData p now
      some { guildID := guild, url := url, position := position, volume := volume,
             state := state }

/-- Modelled from the spec: volume clamped into 0..1000 ("Volume
clamps to 0..1000 on set"). -/
def clampVolume (vol : Int) : Int := max 0 (min 1000 vol)

/-- Replies a handler sends back over the session. -/
inductive NodeReply where
  | playerUpdate (guild state : String) (position : Int) (volume : Int)
  | trackStart (guild url : String)
  | trackError (guild url errText : String)
deriving DecidableEq, Repr

/-- Model of `Server.handleVolume` (websocket.go lines 506 to 530): skip when
the player is missing; otherwise `SetVolume` with the raw payload
value and reply PlayerUpdate echoing the stored volume (the position
reported is the live `voiceManager.Position`, an input here). -/
def handleVolume (players : PlayersMap) (guild : String) (vol : Int) (managerPos : Int) :
    PlayersMap × Option NodeReply :=
  match players.lookup guild with
  | none => (players, none)
  | some p =>
      let p1 := setVolume p vol
      let players1 := setPlayer players guild p1
      (players1, some (.playerUpdate guild p1.state managerPos p1.volume))

/-- Model of `Server.handlePlay` (websocket.go lines 291 to 347):
`getOrCreatePlayer`, apply a positive command volume, then run
`manager.Play` on a detached task whose success is an environment
input `playOk`; on failure reply TrackError and leave the record
alone; on success `SetPlayingState` then reply TrackStart and
PlayerUpdate. -/
def handlePlay (players : PlayersMap) (guild url : String) (startTime : Int)
    (vol : Int) (playOk : Bool) (now : Int) : PlayersMap × List NodeReply :=
  let (p0, players0) :=
    match players.lookup guild with
    | some p => (p, players)
    | none => (freshPlayer, players ++ [(guild, freshPlayer)])
  let (p1, players1) :=
    if vol > 0 then
      let p := setVolume p0 vol
      (p, setPlayer players0 guild p)
    else (p0, players0)
  if playOk then
    let p2 := setPlayingState p1 url startTime now
    let players2 := setPlayer players1 guild p2
    (players2, [.trackStart guild url,
                .playerUpdate guild p2.state p2.position p2.volume])
  else
    (players1, [.trackError guild url "playback failed"])

/-- Model of `Server.PlayerCount` (websocket.go lines 589 to 600): the sum over
all sessions of the size of their player map. -/
def serverPlayerCount (sessions : List PlayersMap) : Nat :=
  (sessions.map List.length).sum

/-- The `Players` field of `Server.GetStats` (websocket.go lines 538
to 548), computed by the same per-session count. -/
def statsPlayersTotal (sessions : List PlayersMap) : Nat :=
  (sessions.map List.length).sum

/-! ## Outbound session queue (server Client) -/

/-- Capacity of `sendCh`, from `make(chan any, 256)` in
`NewClient`. -/
def sendChCapacity : Nat := 256

/-- Model of `Client.send`: a `select` with a `default` branch over the
buffered channel.  The channel is a FIFO list; when it has free space
the message is appended, otherwise the message is dropped and a
warning logged (the returned flag).  Being a total function of the
queue, the model cannot block. -/
def clientSend (queue : List NodeReply) (msg : NodeReply) : List NodeReply × Bool :=
  if queue.length < sendChCapacity then (queue ++ [msg], false)
  else (queue, true)

/-- One `writePump` iteration takes the oldest queued message. -/
def writePumpTake (queue : List NodeReply) : Option NodeReply × List NodeReply :=
  (queue.head?, queue.tail)

/-- The messages a write pump that runs to exhaustion puts on the
wire, in the order `writePumpTake` yields them. -/
def writePumpDrain : List NodeReply → List NodeReply
  | [] => []
  | msg :: rest => msg :: writePumpDrain rest

/-! ## Controller player (client/src/player.ts)

JavaScript truthiness on nullable strings: `null` and the empty string
are falsy. -/

/-- Truthiness of a nullable string. -/
def truthyStr : Option String → Bool
  | none => false
  | some s => s != ""

/-- The `event` half of a voice credential set (types.ts
VoiceServerEvent). -/
structure VoiceServerEvt where
  token : String
  guildId : String
  endpoint : String
deriving DecidableEq, Repr

/-- The pending voice fragments (player.ts PendingVoiceState). -/
structure PendingVoice where
  channelId : Option String
  sessionId : Option String
  serverEvent : Option VoiceServerEvt
deriving DecidableEq, Repr

/-- The empty object `{}` assigned by `this.#pendingVoice ??= {}`. -/
def emptyPending : PendingVoice :=
  { channelId := none, sessionId := none, serverEvent := none }

/-- The cached credentials (player.ts VoiceState). -/
structure VoiceStateCache where
  channelId : String
  sessionId : String
  event : VoiceServerEvt
deriving DecidableEq, Repr

/-- A VoiceUpdate message sent to the node (types.ts
VoiceUpdatePayload). -/
structure VoiceUpdateMsg where
  guildId : String
  channelId : String
  sessionId : String
  event : VoiceServerEvt
deriving DecidableEq, Repr

/-- The controller player fields the credential relay touches, plus
the list of VoiceUpdate messages sent to the node. -/
structure ClientPlayer where
  guildId : String
  voiceChannelId : Option String
  voiceState : Option VoiceStateCache
  pendingVoice : Option PendingVoice
  sent : List VoiceUpdateMsg
deriving DecidableEq, Repr

/-- Model of the private `tryConnectLinkDave` plus `connectToLinkDave` (player.ts
lines 176 to 197): when channel id, session id and server event are
all present (and truthy), cache the credentials, send VoiceUpdate, and
clear the pending buffer; otherwise do nothing. -/
def tryConnectLinkDave (p : ClientPlayer) : ClientPlayer :=
  match p.pendingVoice with
  | some pending =>
      match pending.channelId, pending.sessionId, pending.serverEvent with
      | some cid, some sid, some ev =>
          if cid != "" && sid != "" then
            { p with voiceChannelId := some cid,
                     voiceState := some { channelId := cid, sessionId := sid, event := ev },
                     pendingVoice := none,
                     sent := p.sent ++
                       [{ guildId := p.guildId, channelId := cid, sessionId := sid,
                          event := ev }] }
          else p
      | _, _, _ => p
  | none => p

/-- Model of `Player.handleVoiceStateUpdate` (player.ts lines 144 to 156): a
falsy `channel_id` means the user left the channel, so the pending
buffer is cleared and nothing is sent; otherwise record the channel
and session halves and try to connect. -/
def handleVoiceStateUpdate (p : ClientPlayer) (channelId : Option String)
    (sessionId : String) : ClientPlayer :=
  if !truthyStr channelId then { p with pendingVoice := none }
  else
    let pending := p.pendingVoice.getD emptyPending
    let pending1 := { pending with channelId := channelId, sessionId := some sessionId }
    tryConnectLinkDave { p with pendingVoice := some pending1 }

/-- Model of `Player.handleVoiceServerUpdate` (player.ts lines 161 to 174):
`endpoint = data.endpoint || pending.serverEvent?.endpoint`; a falsy
result throws "Missing voice server endpoint"; otherwise store the
server half with that endpoint and try to connect. -/
def handleVoiceServerUpdate (p : ClientPlayer) (token guildId : String)
    (endpoint : Option String) : Except String ClientPlayer :=
  let pending := p.pendingVoice.getD emptyPending
  let chosen : Option String :=
    if truthyStr endpoint then endpoint
    else pending.serverEvent.map (fun ev => ev.endpoint)
  if truthyStr chosen then
    match chosen with
    | some ep =>
        let evt : VoiceServerEvt := { token := token, guildId := guildId, endpoint := ep }
        let pending1 := { pending with serverEvent := some evt }
        .ok (tryConnectLinkDave { p with pendingVoice := some pending1 })
    | none => .error "Missing voice server endpoint"
  else .error "Missing voice server endpoint"

/-- The pending buffer after `handleVoiceServerUpdate` stores the
server half with endpoint `ep`. -/
def withServerEvt (pending : PendingVoice) (token gid ep : String) : PendingVoice :=
  { pending with serverEvent := some { token := token, guildId := gid, endpoint := ep } }

/-! ## Auxiliary predicate and concrete states used below -/

/-- Invariant tying the track-end callbacks fired so far to the set of
sources installed so far: the reasons are terminal, the current source
was installed, and a source has exactly one callback exactly when it
was installed and is no longer current. -/
def ConnInv (played : List Nat) (c : ConnState) : Prop :=
  (∀ s, c.source = some s → s ∈ played) ∧
  (∀ e ∈ c.events, e.2 ∈ terminalReasons) ∧
  (∀ s, endCount c.events s = if s ∈ played ∧ c.source ≠ some s then 1 else 0)

/-- A concrete operation sequence exercising replace, EOF, stale-pull
suppression and stop. -/
def exampleOps : List ConnOp :=
  [.play 1, .pull 1 .gotEOF, .pull 1 .gotErr, .play 2, .pause, .resume,
   .pull 2 .gotFrame, .stop, .pull 2 .gotErr, .play 3]

/-- A concrete pending buffer holding only the server half of the
credentials. -/
def examplePending : PendingVoice :=
  { channelId := none, sessionId := none,
    serverEvent := some { token := "t0", guildId := "g", endpoint := "ep0" } }

/-- A concrete controller player with `examplePending` buffered. -/
def examplePlayer : ClientPlayer :=
  { guildId := "g", voiceChannelId := none, voiceState := none,
    pendingVoice := some examplePending, sent := [] }

/-- A queue at capacity. -/
def fullQueue : List NodeReply :=
  List.replicate sendChCapacity (.playerUpdate "g" "idle" 0 100)

/-- A construction environment in which fetch, decoder and encoder all
succeed at 48kHz. -/
def okFetchEnv : FetchEnv :=
  { status := 200, decoderOk := true, encoderOk := true, sampleRate := 48000 }

/-- The source `NewMP3Source` returns under `okFetchEnv`. -/
def exampleSource : MP3Source :=
  { url := "http://host/a.mp3", srcSampleRate := 48000,
    pcmBufferLen := inputFrameBytes 48000, position := 0, closed := false }

/-- A paused player whose stored position is 100 ms and whose playing
interval started at instant 0. -/
def examplePausedPlayer : PlayerRec :=
  { state := "paused", currentURL := "http://host/a.mp3", position := 100,
    volume := 100, startedAt := 0, channelID := 0 }

/-! # Helper lemmas -/

theorem writePumpDrain_eq (q : List NodeReply) : writePumpDrain q = q := by
  induction q with
  | nil => rfl
  | cons h t ih => simpa [writePumpDrain] using ih

theorem lookup_append_missing (g : String) (p : PlayerRec) :
    ∀ players : PlayersMap, players.lookup g = none →
      (players ++ [(g, p)]).lookup g = some p := by
  intro players
  induction players with
  | nil => intro _; simp [List.lookup]
  | cons kv t ih =>
      intro h
      obtain ⟨k, v⟩ := kv
      by_cases hk : g = k
      · subst hk; simp [List.lookup] at h
      · simp only [List.cons_append, List.lookup] at h ⊢
        have hbeq : (g == k) = false := by simpa using hk
        rw [hbeq] at h ⊢
        exact ih h

theorem lookup_setPlayer (g : String) (p : PlayerRec) :
    ∀ players : PlayersMap, (players.lookup g).isSome →
      (setPlayer players g p).lookup g = some p := by
  intro players
  induction players with
  | nil => intro h; simp [List.lookup] at h
  | cons kv t ih =>
      intro h
      obtain ⟨k, v⟩ := kv
      by_cases hk : g = k
      · subst hk
        simp only [setPlayer, List.map_cons, if_pos rfl]
        simp [List.lookup]
      · have hk2 : ¬ k = g := fun h2 => hk h2.symm
        have hbeq : (g == k) = false := by simpa using hk
        simp only [setPlayer, List.map_cons, if_neg hk2]
        simp only [List.lookup, hbeq] at h ⊢
        refine ih ?_
        simpa [List.lookup] using h

theorem length_setPlayer (players : PlayersMap) (g : String) (p : PlayerRec) :
    (setPlayer players g p).length = players.length := by
  simp [setPlayer]

/-! # Claim theorems -/

/-- Claim C2: the claim requires that whenever a voice socket close
handler fires while its socket is still the current one, the manager
removes the map entry and notifies `on_voice_disconnected`.  The code
inverts the guard: the handler returns early unless `c.closed` is
already set, so a live connection that loses its socket (the
connection-lost scenario the claim describes) never reaches the
manager; the callback fires only after a deliberate `Close`.
`Manager.onDisconnect` itself would remove the entry and notify, as
the last conjunct shows, so the break is precisely the close-handler
guard. -/
theorem closeHandler_never_fires_while_live :
    (∀ cb cur : Bool,
      closeHandlerInvokesDisconnect
        { closedFlag := false, hasOnDisconnect := cb, isCurrent := cur } = false) ∧
    closeHandlerInvokesDisconnect
      { closedFlag := true, hasOnDisconnect := true, isCurrent := true } = true ∧
    managerOnDisconnect [("bot:guild", 1)] "bot:guild" 1 true = ([], true) := by
  refine ⟨?_, rfl, by decide⟩
  intro cb cur
  cases cb <;> cases cur <;> rfl

/-- Claim C3: the claim requires the stored volume to be clamped into
0..1000.  `Server.handleVolume` calls `Player.SetVolume` with the raw
payload value and echoes it in the PlayerUpdate reply, so 9999 is
stored and reported as 9999 (not 1000) and -5 as -5 (not 0). -/
theorem volume_stored_and_reported_unclamped :
    (handleVolume [("g", freshPlayer)] "g" 9999 0).1.lookup "g"
        = some { freshPlayer with volume := 9999 } ∧
    (handleVolume [("g", freshPlayer)] "g" 9999 0).2
        = some (.playerUpdate "g" "idle" 0 9999) ∧
    (handleVolume [("g", freshPlayer)] "g" (-5) 0).1.lookup "g"
        = some { freshPlayer with volume := -5 } ∧
    clampVolume 9999 = 1000 ∧ clampVolume (-5) = 0 ∧
    (9999 : Int) ≠ 1000 ∧ (-5 : Int) ≠ 0 := by
  refine ⟨by decide, by decide, by decide, by decide, by decide, by decide, by decide⟩

/-- Claim C4 counterexample: a paused player with stored position 100
and 50 ms elapsed since `startedAt` gets MigrateReady position 150,
not the stored 100 the claim requires for the paused state. -/
theorem migrate_position_paused_not_stored :
    (handlePlayerMigrate [("g", examplePausedPlayer)] "g" 50).map
        (fun msg => msg.position) = some 150 ∧
    examplePausedPlayer.state = "paused" ∧
    examplePausedPlayer.position = 100 ∧ (150 : Int) ≠ 100 := by
  refine ⟨by decide, rfl, rfl, by decide⟩

/-- Claim C4 (amended): for every PlayerMigrate command on an existing
player, the MigrateReady position equals the stored position plus
(now - started_at) in every state, paused and idle included; in the
playing state this coincides with the original claim. -/
theorem migrate_position_always_adds_elapsed (players : PlayersMap) (guild : String)
    (p : PlayerRec) (now : Int) (hp : players.lookup guild = some p) :
    handlePlayerMigrate players guild now
      = some { guildID := guild, url := p.currentURL,
               position := (now - p.startedAt) + p.position,
               volume := p.volume, state := p.state } := by
  simp [handlePlayerMigrate, getMigrateData, hp]

theorem migrate_position_always_adds_elapsed_witness :
    handlePlayerMigrate [("g", examplePausedPlayer)] "g" 50
      = some { guildID := "g", url := examplePausedPlayer.currentURL,
               position := (50 - examplePausedPlayer.startedAt) + examplePausedPlayer.position,
               volume := examplePausedPlayer.volume,
               state := examplePausedPlayer.state } :=
  migrate_position_always_adds_elapsed [("g", examplePausedPlayer)] "g"
    examplePausedPlayer 50 (by decide)

/-- Claim C5: `Client.send` on a queue with free space appends the
message (and a write pump that drains the queue writes it after the
earlier messages, preserving enqueue order); on a full queue the
message is dropped with a warning (the returned flag); the function is
total in both cases, so the producer never blocks. -/
theorem send_enqueues_or_drops_never_blocks (queue : List NodeReply) (msg : NodeReply) :
    (queue.length < sendChCapacity →
      clientSend queue msg = (queue ++ [msg], false) ∧
      writePumpDrain (queue ++ [msg]) = writePumpDrain queue ++ [msg]) ∧
    (¬ queue.length < sendChCapacity → clientSend queue msg = (queue, true)) := by
  constructor
  · intro h
    exact ⟨by simp [clientSend, h], by simp [writePumpDrain_eq]⟩
  · intro h
    simp [clientSend, h]

theorem send_enqueues_or_drops_never_blocks_witness :
    clientSend [] (.playerUpdate "g" "idle" 0 100)
        = ([.playerUpdate "g" "idle" 0 100], false) ∧
    clientSend fullQueue (.playerUpdate "g" "idle" 0 100) = (fullQueue, true) :=
  ⟨((send_enqueues_or_drops_never_blocks [] (.playerUpdate "g" "idle" 0 100)).1
      (by decide)).1,
   (send_enqueues_or_drops_never_blocks fullQueue (.playerUpdate "g" "idle" 0 100)).2
      (by simp only [fullQueue, List.length_replicate, lt_self_iff_false,
            not_false_eq_true])⟩

/-- Claim C9: `NewMP3Source` never reads its start-offset argument:
for all offsets the issued HTTP request is identical, construction
yields the same source state under any environment, and a freshly
constructed source has position 0 — so a migration Play carrying
`start_time` equal to the snapshot position restarts from the
beginning of the stream. -/
theorem mp3Source_independent_of_start_offset (url : String) (s1 s2 : Int)
    (env : FetchEnv) :
    mp3SourceRequest url s1 = mp3SourceRequest url s2 ∧
    createFromURL url s1 env = createFromURL url s2 env ∧
    (∀ m, createFromURL url s1 env = some m → m.position = 0) := by
  refine ⟨rfl, rfl, ?_⟩
  intro m hm
  unfold createFromURL at hm
  split at hm
  · unfold NewMP3Source at hm
    split at hm
    · simp at hm
    · split at hm
      · simp at hm
      · split at hm
        · simp at hm
        · have h := Option.some.inj hm
          rw [← h]
  · simp at hm

theorem mp3Source_independent_of_start_offset_witness :
    createFromURL "http://host/a.mp3" 5 okFetchEnv = some exampleSource ∧
    exampleSource.position = 0 :=
  ⟨rfl,
   (mp3Source_independent_of_start_offset "http://host/a.mp3" 5 7 okFetchEnv).2.2
     exampleSource rfl⟩

theorem provide_position_step (s : MP3Source) (rd : ReadOutcome) (enc : EncodeOutcome) :
    (provideOpusFrame s rd enc).2.position
      = s.position + (if ((provideOpusFrame s rd enc).1).isFrame then 20 else 0) := by
  by_cases hc : s.closed
  · simp [provideOpusFrame, hc, FrameResult.isFrame]
  · cases rd with
    | readFail => simp [provideOpusFrame, hc, FrameResult.isFrame]
    | ok bytes =>
        cases enc <;> simp [provideOpusFrame, encodeTail, hc, FrameResult.isFrame]
    | eofShort bytes =>
        by_cases hb : bytes.length = 0
        · simp [provideOpusFrame, hc, hb, FrameResult.isFrame]
        · cases enc <;> simp [provideOpusFrame, encodeTail, hc, hb, FrameResult.isFrame]

/-- Claim C6: every successful `ProvideOpusFrame` call advances the
position counter by exactly 20 ms and every unsuccessful call leaves
it unchanged; hence over any call sequence the position grows by
exactly 20 times the number of successful calls (in particular by
20·N over N consecutive successful calls) and never decreases. -/
theorem position_counts_20_per_frame :
    (∀ (s : MP3Source) (rd : ReadOutcome) (enc : EncodeOutcome),
        (provideOpusFrame s rd enc).2.position
          = s.position + (if ((provideOpusFrame s rd enc).1).isFrame then 20 else 0)) ∧
    (∀ (s : MP3Source) (ins : List (ReadOutcome × EncodeOutcome)),
        (runFrames s ins).2.position
          = s.position + 20 * countFrames (runFrames s ins).1) ∧
    (∀ (s : MP3Source) (ins : List (ReadOutcome × EncodeOutcome)),
        s.position ≤ (runFrames s ins).2.position) := by
  have hrun : ∀ (ins : List (ReadOutcome × EncodeOutcome)) (s : MP3Source),
      (runFrames s ins).2.position
        = s.position + 20 * countFrames (runFrames s ins).1 := by
    intro ins
    induction ins with
    | nil => intro s; simp [runFrames, countFrames]
    | cons pair rest ih =>
        intro s
        obtain ⟨rd, enc⟩ := pair
        simp only [runFrames]
        rw [ih, provide_position_step s rd enc]
        by_cases hf : ((provideOpusFrame s rd enc).1).isFrame <;>
          simp [countFrames, List.filter_cons, hf] <;> push_cast <;> ring
  refine ⟨provide_position_step, fun s ins => hrun ins s, fun s ins => ?_⟩
  rw [hrun ins s]
  have : (0 : Int) ≤ 20 * countFrames (runFrames s ins).1 := by positivity
  omega

theorem ceil_quarter (k : ℕ) : ⌈(k : ℚ) / 4⌉ = (((k + 3) / 4 : ℕ) : ℤ) := by
  set m := (k + 3) / 4 with hmdef
  have h1 : 4 * m ≤ k + 3 := by omega
  have h2 : k ≤ 4 * m := by omega
  have h3 : (k : ℚ) ≤ 4 * (m : ℚ) := by exact_mod_cast h2
  have h4 : 4 * (m : ℚ) ≤ (k : ℚ) + 3 := by exact_mod_cast h1
  rw [Int.ceil_eq_iff]
  refine ⟨?_, ?_⟩
  · push_cast
    rw [lt_div_iff₀ (by norm_num : (0:ℚ) < 4)]
    linarith [h4]
  · push_cast
    rw [div_le_iff₀ (by norm_num : (0:ℚ) < 4)]
    linarith [h3]

theorem quotient_exact (src k : Nat) (hsrc : src ≠ 0)
    (h : pcmFrameBytes * src = k * opusSampleRate) :
    (pcmFrameBytes : ℚ) / ((opusSampleRate : ℚ) / (src : ℚ)) = (k : ℚ) := by
  have h1 : (src : ℚ) ≠ 0 := by exact_mod_cast hsrc
  have h2 : (opusSampleRate : ℚ) ≠ 0 := by norm_num [opusSampleRate]
  field_simp
  exact_mod_cast h

theorem inputFrameBytes_of_exact (src k : Nat) (hsrc : src ≠ 0)
    (h : pcmFrameBytes * src = k * opusSampleRate) :
    inputFrameBytes src = roundUpTo4 k := by
  unfold inputFrameBytes resampleRatio
  rw [quotient_exact src k hsrc h, Int.floor_natCast]
  simp

theorem specReadSize_of_exact (src k : Nat) (hsrc : src ≠ 0)
    (h : pcmFrameBytes * src = k * opusSampleRate) :
    specReadSize src = (roundUpTo4 k : ℤ) := by
  unfold specReadSize
  rw [quotient_exact src k hsrc h, ceil_quarter]
  unfold roundUpTo4
  push_cast
  ring

theorem exactRaw_of_exact (src k : Nat)
    (h : pcmFrameBytes * src = k * opusSampleRate) :
    exactRawReadSize src = k := by
  unfold exactRawReadSize
  rw [h]
  exact Nat.mul_div_cancel k (by norm_num [opusSampleRate])

theorem newMP3Source_fields (url : String) (startTimeMs : Int) (env : FetchEnv)
    (m : MP3Source) (hm : NewMP3Source url startTimeMs env = some m) :
    m.pcmBufferLen = inputFrameBytes env.sampleRate ∧ m.position = 0 ∧
    m.closed = false ∧ m.srcSampleRate = env.sampleRate := by
  unfold NewMP3Source at hm
  split at hm
  · simp at hm
  · split at hm
    · simp at hm
    · split at hm
      · simp at hm
      · have h := Option.some.inj hm
        rw [← h]
        exact ⟨rfl, rfl, rfl, rfl⟩

theorem provide_keeps_pcmBufferLen (s : MP3Source) (rd : ReadOutcome)
    (enc : EncodeOutcome) :
    (provideOpusFrame s rd enc).2.pcmBufferLen = s.pcmBufferLen := by
  by_cases hc : s.closed
  · simp [provideOpusFrame, hc]
  · cases rd with
    | readFail => simp [provideOpusFrame, hc]
    | ok bytes => cases enc <;> simp [provideOpusFrame, encodeTail, hc]
    | eofShort bytes =>
        by_cases hb : bytes.length = 0
        · simp [provideOpusFrame, hc, hb]
        · cases enc <;> simp [provideOpusFrame, encodeTail, hc, hb]

/-- Claim C7: for every sample rate the MP3 decoder can report, the
computed `inputFrameBytes` equals the spec formula
`round_up_to_multiple_of_4(pcm_frame_bytes / (48000 / src_rate))`
(exact division, here as the least multiple of 4 at or above the
quotient); a constructed source sizes its PCM buffer to that value,
every `ProvideOpusFrame` call asks `io.ReadFull` for exactly that many
bytes, and the buffer size never changes.  The last two conjuncts
absorb the float64 truncation in the Go code: whether the truncated
quotient is the exact integer or one below it, the rounded-up read
size is the same. -/
theorem read_size_matches_spec_formula (src : Nat) (hsrc : src ∈ mp3SampleRates)
    (url : String) (startTimeMs : Int) (env : FetchEnv) (m : MP3Source)
    (henv : env.sampleRate = src) (hm : NewMP3Source url startTimeMs env = some m) :
    (inputFrameBytes src : ℤ) = specReadSize src ∧
    readRequestBytes m = inputFrameBytes src ∧
    (∀ rd enc, readRequestBytes (provideOpusFrame m rd enc).2 = readRequestBytes m) ∧
    roundUpTo4 (exactRawReadSize src) = inputFrameBytes src ∧
    roundUpTo4 (exactRawReadSize src - 1) = inputFrameBytes src := by
  have hk : ∃ k, pcmFrameBytes * src = k * opusSampleRate ∧
      roundUpTo4 (k - 1) = roundUpTo4 k ∧ src ≠ 0 := by
    fin_cases hsrc
    · exact ⟨640, by decide, by decide, by decide⟩
    · exact ⟨882, by decide, by decide, by decide⟩
    · exact ⟨960, by decide, by decide, by decide⟩
    · exact ⟨1280, by decide, by decide, by decide⟩
    · exact ⟨1764, by decide, by decide, by decide⟩
    · exact ⟨1920, by decide, by decide, by decide⟩
    · exact ⟨2560, by decide, by decide, by decide⟩
    · exact ⟨3528, by decide, by decide, by decide⟩
    · exact ⟨3840, by decide, by decide, by decide⟩
  obtain ⟨k, hke, hkr, hs0⟩ := hk
  have hfields := newMP3Source_fields url startTimeMs env m hm
  refine ⟨?_, ?_, ?_, ?_, ?_⟩
  · rw [inputFrameBytes_of_exact src k hs0 hke, specReadSize_of_exact src k hs0 hke]
  · unfold readRequestBytes
    rw [hfields.1, henv]
  · intro rd enc
    unfold readRequestBytes
    exact provide_keeps_pcmBufferLen m rd enc
  · rw [exactRaw_of_exact src k hke, inputFrameBytes_of_exact src k hs0 hke]
  · rw [exactRaw_of_exact src k hke, inputFrameBytes_of_exact src k hs0 hke]
    exact hkr

theorem read_size_matches_spec_formula_witness :
    readRequestBytes exampleSource = inputFrameBytes 48000 ∧
    (inputFrameBytes 48000 : ℤ) = specReadSize 48000 :=
  ⟨(read_size_matches_spec_formula 48000 (by decide) "http://host/a.mp3" 5 okFetchEnv
      exampleSource rfl rfl).2.1,
   (read_size_matches_spec_formula 48000 (by decide) "http://host/a.mp3" 5 okFetchEnv
      exampleSource rfl rfl).1⟩

/-- Claim C8: a VOICE_STATE_UPDATE whose channel id is null clears the
pending buffer and sends nothing; a VOICE_SERVER_UPDATE whose endpoint
is null reuses the previously buffered endpoint when one is present
(the stored server half carries the old endpoint with the new token),
and fails with the missing-endpoint error when no prior endpoint
exists (no buffer at all, or a buffer without a server half). -/
theorem null_credential_halves_handled (p : ClientPlayer) :
    (∀ sid, (handleVoiceStateUpdate p none sid).pendingVoice = none ∧
            (handleVoiceStateUpdate p none sid).sent = p.sent) ∧
    (∀ token gid pending ev, p.pendingVoice = some pending →
        pending.serverEvent = some ev → ev.endpoint ≠ "" →
        handleVoiceServerUpdate p token gid none
          = .ok (tryConnectLinkDave { p with pendingVoice := some (withServerEvt pending token gid ev.endpoint) })) ∧
    (∀ token gid, p.pendingVoice = none →
        handleVoiceServerUpdate p token gid none
          = .error "Missing voice server endpoint") ∧
    (∀ token gid pending, p.pendingVoice = some pending →
        pending.serverEvent = none →
        handleVoiceServerUpdate p token gid none
          = .error "Missing voice server endpoint") := by
  refine ⟨?_, ?_, ?_, ?_⟩
  · intro sid
    constructor <;> simp [handleVoiceStateUpdate, truthyStr]
  · intro token gid pending ev hp hev hne
    simp [handleVoiceServerUpdate, hp, hev, truthyStr, hne, withServerEvt]
  · intro token gid hp
    simp [handleVoiceServerUpdate, hp, truthyStr, emptyPending]
  · intro token gid pending hp hev
    simp [handleVoiceServerUpdate, hp, hev, truthyStr]

theorem null_credential_halves_handled_witness :
    handleVoiceServerUpdate examplePlayer "t1" "g" none
      = .ok (tryConnectLinkDave { examplePlayer with pendingVoice := some (withServerEvt examplePending "t1" "g" "ep0") }) :=
  (null_credential_halves_handled examplePlayer).2.1 "t1" "g" examplePending
    { token := "t0", guildId := "g", endpoint := "ep0" } rfl rfl (by decide)

/-- Claim C10: a Play for a guild with no player record creates an
idle record first (volume 100, or the command volume when positive);
when the detached playback task fails, the only reply is TrackError,
the record survives in state idle, and both `PlayerCount` and the
stats players total see it. -/
theorem play_failure_keeps_idle_record (players : PlayersMap) (guild url : String)
    (startTime vol now : Int) (habsent : players.lookup guild = none) :
    (handlePlay players guild url startTime vol false now).1.lookup guild
        = some { freshPlayer with volume := if vol > 0 then vol else 100 } ∧
    ((handlePlay players guild url startTime vol false now).1.lookup guild).map
        (fun p => p.state) = some "idle" ∧
    (handlePlay players guild url startTime vol false now).2
        = [.trackError guild url "playback failed"] ∧
    serverPlayerCount [(handlePlay players guild url startTime vol false now).1]
        = serverPlayerCount [players] + 1 ∧
    statsPlayersTotal [(handlePlay players guild url startTime vol false now).1]
        = statsPlayersTotal [players] + 1 := by
  have hlu := lookup_append_missing guild freshPlayer players habsent
  by_cases hv : vol > 0
  · have hset := lookup_setPlayer guild (setVolume freshPlayer vol)
      (players ++ [(guild, freshPlayer)]) (by rw [hlu]; rfl)
    have hres : handlePlay players guild url startTime vol false now
        = (setPlayer (players ++ [(guild, freshPlayer)]) guild (setVolume freshPlayer vol),
           [.trackError guild url "playback failed"]) := by
      simp [handlePlay, habsent, hv]
    rw [hres]
    refine ⟨?_, ?_, rfl, ?_, ?_⟩
    · rw [hset]
      simp [setVolume, freshPlayer, hv]
    · rw [hset]
      simp [setVolume, freshPlayer]
    · simp [serverPlayerCount, length_setPlayer]
    · simp [statsPlayersTotal, length_setPlayer]
  · have hres : handlePlay players guild url startTime vol false now
        = (players ++ [(guild, freshPlayer)],
           [.trackError guild url "playback failed"]) := by
      simp [handlePlay, habsent, hv]
    rw [hres]
    refine ⟨?_, ?_, rfl, ?_, ?_⟩
    · rw [hlu]
      simp [freshPlayer, hv]
    · rw [hlu]
      simp [freshPlayer]
    · simp [serverPlayerCount]
    · simp [statsPlayersTotal]

theorem play_failure_keeps_idle_record_witness :
    (handlePlay [] "g" "http://host/a.mp3" 0 0 false 7).1.lookup "g"
      = some { freshPlayer with volume := if (0:Int) > 0 then 0 else 100 } :=
  (play_failure_keeps_idle_record [] "g" "http://host/a.mp3" 0 0 7 rfl).1

theorem endCount_append (evs : List (Nat × String)) (e : Nat × String) (s : Nat) :
    endCount (evs ++ [e]) s = endCount evs s + (if e.1 = s then 1 else 0) := by
  by_cases h : e.1 = s <;> simp [endCount, List.filter_append, List.filter_cons, h]

theorem playedSources_cons (op : ConnOp) (rest : List ConnOp) :
    playedSources (op :: rest) = playedSources [op] ++ playedSources rest := by
  cases op <;> simp [playedSources]

theorem connStep_inv (played : List Nat) (c : ConnState) (op : ConnOp)
    (hInv : ConnInv played c) (hFresh : ∀ s, op = .play s → s ∉ played) :
    ConnInv (played ++ playedSources [op]) (connStep c op) := by
  obtain ⟨h1, h2, h3⟩ := hInv
  cases op with
  | pause =>
      refine ⟨fun s hs => ?_,
              fun e he => h2 e (by simpa [connStep, connPause] using he), fun s => ?_⟩
      · simpa [playedSources] using h1 s (by simpa [connStep, connPause] using hs)
      · simpa [connStep, connPause, playedSources] using h3 s
  | resume =>
      refine ⟨fun s hs => ?_,
              fun e he => h2 e (by simpa [connStep, connResume] using he), fun s => ?_⟩
      · simpa [playedSources] using h1 s (by simpa [connStep, connResume] using hs)
      · simpa [connStep, connResume, playedSources] using h3 s
  | play s =>
      have hs_not : s ∉ played := hFresh s rfl
      cases hcs : c.source with
      | none =>
          refine ⟨?_, ?_, ?_⟩
          · intro t ht
            simp [connStep, connPlay, hcs] at ht
            simp [playedSources, ht]
          · intro e he
            exact h2 e (by simpa [connStep, connPlay, hcs] using he)
          · intro t
            have hcnt := h3 t
            simp only [connStep, connPlay, hcs]
            by_cases hts : t = s
            · subst hts
              rw [hcnt]
              simp [hs_not, playedSources]
            · rw [hcnt]
              have hmem : t ∈ played ++ playedSources [ConnOp.play s] ↔ t ∈ played := by
                simp [playedSources, hts]
              have hne2 : (some s ≠ some t) := by simpa using fun he => hts he.symm
              simp only [hcs, hmem]
              simp [hne2, Ne, hcs]
      | some old =>
          have hold : old ∈ played := h1 old hcs
          have hos : old ≠ s := fun he => hs_not (he ▸ hold)
          refine ⟨?_, ?_, ?_⟩
          · intro t ht
            simp [connStep, connPlay, hcs] at ht
            simp [playedSources, ht]
          · intro e he
            simp only [connStep, connPlay, hcs, List.mem_append] at he
            rcases he with he | he
            · exact h2 e he
            · simp at he
              subst he
              simp [terminalReasons, trackEndReasonReplaced]
          · intro t
            have hcnt := h3 t
            simp only [connStep, connPlay, hcs]
            rw [endCount_append]
            by_cases hto : old = t
            · subst hto
              rw [if_pos rfl, hcnt, if_neg (by simp [hcs])]
              rw [if_pos ⟨List.mem_append_left _ hold, by simpa using Ne.symm hos⟩]
            · rw [hcnt]
              by_cases hts : t = s
              · subst hts
                simp [hs_not, hcs, playedSources, hto]
              · have hmem : t ∈ played ++ playedSources [ConnOp.play s] ↔ t ∈ played := by
                  simp [playedSources, hts]
                have hne1 : some old ≠ some t := by simpa using hto
                have hne2 : some s ≠ some t := by simpa using fun he => hts he.symm
                simp only [hcs, hmem, hto]
                simp [hne1, hne2, Ne, hcs, hto]
  | stop =>
      cases hcs : c.source with
      | none =>
          refine ⟨?_, ?_, ?_⟩
          · intro t ht
            simp [connStep, connStop, hcs] at ht
          · intro e he
            exact h2 e (by simpa [connStep, connStop, hcs] using he)
          · intro t
            have hcnt := h3 t
            simp only [connStep, connStop, hcs] at hcnt ⊢
            simpa [playedSources] using hcnt
      | some old =>
          have hold : old ∈ played := h1 old hcs
          refine ⟨?_, ?_, ?_⟩
          · intro t ht
            simp [connStep, connStop, hcs] at ht
          · intro e he
            simp only [connStep, connStop, hcs, List.mem_append] at he
            rcases he with he | he
            · exact h2 e he
            · simp at he
              subst he
              simp [terminalReasons, trackEndReasonStopped]
          · intro t
            have hcnt := h3 t
            simp only [connStep, connStop, hcs]
            rw [endCount_append]
            by_cases hto : old = t
            · subst hto
              rw [hcnt]
              simp [hcs, hold, playedSources]
            · rw [hcnt]
              have hne1 : c.source ≠ some t := by simp [hcs]; exact hto
              simp [playedSources, hne1, hto]
  | pull s r =>
      cases r with
      | gotFrame =>
          refine ⟨?_, ?_, ?_⟩
          · intro t ht
            simpa [playedSources] using h1 t (by simpa [connStep, connPull] using ht)
          · intro e he
            exact h2 e (by simpa [connStep, connPull] using he)
          · intro t
            simpa [connStep, connPull, playedSources] using h3 t
      | gotEOF =>
          by_cases hcs : c.source = some s
          · have hsp : s ∈ played := h1 s hcs
            refine ⟨?_, ?_, ?_⟩
            · intro t ht
              simp [connStep, connPull, connHandleTrackEnd, hcs] at ht
            · intro e he
              simp only [connStep, connPull, connHandleTrackEnd, hcs, if_pos,
                         List.mem_append] at he
              rcases he with he | he
              · exact h2 e he
              · simp at he
                subst he
                simp [terminalReasons, trackEndReasonFinished]
            · intro t
              have hcnt := h3 t
              simp only [connStep, connPull, connHandleTrackEnd, hcs, if_pos]
              rw [endCount_append]
              by_cases hts : s = t
              · subst hts
                rw [hcnt]
                simp [hcs, hsp, playedSources]
              · rw [hcnt]
                have hne1 : c.source ≠ some t := by
                  rw [hcs]; simpa using hts
                simp [playedSources, hne1, hts]
          · refine ⟨?_, ?_, ?_⟩
            · intro t ht
              simpa [playedSources] using h1 t
                (by simpa [connStep, connPull, connHandleTrackEnd, hcs] using ht)
            · intro e he
              exact h2 e
                (by simpa [connStep, connPull, connHandleTrackEnd, hcs] using he)
            · intro t
              simpa [connStep, connPull, connHandleTrackEnd, hcs, playedSources]
                using h3 t
      | gotErr =>
          by_cases hcs : c.source = some s
          · have hsp : s ∈ played := h1 s hcs
            refine ⟨?_, ?_, ?_⟩
            · intro t ht
              simp [connStep, connPull, connHandleTrackEnd, hcs] at ht
            · intro e he
              simp only [connStep, connPull, connHandleTrackEnd, hcs, if_pos,
                         List.mem_append] at he
              rcases he with he | he
              · exact h2 e he
              · simp at he
                subst he
                simp [terminalReasons, trackEndReasonError]
            · intro t
              have hcnt := h3 t
              simp only [connStep, connPull, connHandleTrackEnd, hcs, if_pos]
              rw [endCount_append]
              by_cases hts : s = t
              · subst hts
                rw [hcnt]
                simp [hcs, hsp, playedSources]
              · rw [hcnt]
                have hne1 : c.source ≠ some t := by
                  rw [hcs]; simpa using hts
                simp [playedSources, hne1, hts]
          · refine ⟨?_, ?_, ?_⟩
            · intro t ht
              simpa [playedSources] using h1 t
                (by simpa [connStep, connPull, connHandleTrackEnd, hcs] using ht)
            · intro e he
              exact h2 e
                (by simpa [connStep, connPull, connHandleTrackEnd, hcs] using he)
            · intro t
              simpa [connStep, connPull, connHandleTrackEnd, hcs, playedSources]
                using h3 t

theorem connRun_inv : ∀ (ops : List ConnOp) (played : List Nat) (c : ConnState),
    (played ++ playedSources ops).Nodup → ConnInv played c →
    ConnInv (played ++ playedSources ops) (connRun c ops) := by
  intro ops
  induction ops with
  | nil =>
      intro played c h hc
      simpa [connRun, playedSources] using hc
  | cons op rest ih =>
      intro played c h hc
      have hcons : playedSources (op :: rest)
          = playedSources [op] ++ playedSources rest := playedSources_cons op rest
      have hassoc : played ++ playedSources (op :: rest)
          = (played ++ playedSources [op]) ++ playedSources rest := by
        rw [hcons, List.append_assoc]
      have hFresh : ∀ s, op = .play s → s ∉ played := by
        intro s hop hmem
        subst hop
        have hd := List.disjoint_of_nodup_append h
        exact hd hmem (by simp [playedSources_cons, playedSources])
      have hstep := connStep_inv played c op hc hFresh
      have hnodup2 : ((played ++ playedSources [op]) ++ playedSources rest).Nodup := by
        rw [← hassoc]; exact h
      have hrec := ih (played ++ playedSources [op]) (connStep c op) hnodup2 hstep
      rw [hassoc]
      simpa [connRun] using hrec

/-- Claim C1: along any sequence of play, pause, resume, stop and
frame-pull operations on a connection whose played sources are
pairwise distinct, every fired `onTrackEnd` reason is one of finished,
stopped, replaced or error, and each source has fired exactly one
terminal callback precisely when it was installed by `play` and is no
longer the current source (replaced by `play`, stopped by `stop`, or
ended by the EOF and error path, which the identity check suppresses
for a source that is no longer current) — in particular never more
than one callback per source. -/
theorem track_end_fires_exactly_once (ops : List ConnOp)
    (hnodup : (playedSources ops).Nodup) :
    (∀ e ∈ (connRun connInit ops).events, e.2 ∈ terminalReasons) ∧
    (∀ s, endCount (connRun connInit ops).events s
        = if s ∈ playedSources ops ∧ (connRun connInit ops).source ≠ some s
          then 1 else 0) := by
  have hinit : ConnInv [] connInit := by
    refine ⟨?_, ?_, ?_⟩
    · intro s hs
      simp [connInit] at hs
    · intro e he
      simp [connInit] at he
    · intro s
      simp [connInit, endCount]
  have hmain := connRun_inv ops [] connInit (by simpa using hnodup) hinit
  rw [List.nil_append] at hmain
  exact ⟨hmain.2.1, hmain.2.2⟩

theorem track_end_fires_exactly_once_witness :
    endCount (connRun connInit exampleOps).events 1
      = if 1 ∈ playedSources exampleOps ∧ (connRun connInit exampleOps).source ≠ some 1
        then 1 else 0 :=
  (track_end_fires_exactly_once exampleOps (by decide)).2 1

end LinkDave
